import Mathlib

/-!
Verification development for the PaydownPilot repository.

Part 1 models the repayment-plan solver.  The solver module
(`solver_engine.py`) is not present in this source snapshot — only the test
programs that exercise it are — so every definition in this part is modelled
from the specification text (sections 3 and 4 of the spec), faithful to its
words.  Part 2 embeds the transaction-enrichment functions that are present
in `src/enrichment_service.py`.
-/

namespace PaydownPilot

/-- Modelled from the spec: `MinPaymentRule` of the missing `solver_engine`
module — a fixed-cents floor, a percentage-of-balance floor in basis points,
and a flag saying whether accrued interest is additionally included. -/
structure MinPaymentRule where
  fixed_cents : Nat
  percentage_bps : Nat
  includes_interest : Bool
deriving DecidableEq, Repr

/-- Modelled from the spec: the closed set of account types of the missing
`solver_engine` module; behaviorally inert to the algorithm. -/
inductive AccountType where
  | CREDIT_CARD
  | LOAN
  | LINE_OF_CREDIT
deriving DecidableEq, Repr

/-- Modelled from the spec: `Account` of the missing `solver_engine` module.
All monetary quantities are integer cents; rates are integer basis points. -/
structure Account where
  lender_name : String
  account_type : AccountType
  current_balance_cents : Nat
  apr_standard_bps : Nat
  payment_due_day : Nat
  min_payment_rule : MinPaymentRule
  promo_duration_months : Option Nat
deriving DecidableEq, Repr

/-- Modelled from the spec: one scheduled future change of the monthly
budget amount, part of `Budget` in the missing `solver_engine` module. -/
structure BudgetChange where
  effective_month : Nat
  new_amount_cents : Nat
deriving DecidableEq, Repr

/-- Modelled from the spec: one one-off lump-sum injection, part of
`Budget` in the missing `solver_engine` module. -/
structure LumpSum where
  month : Nat
  amount_cents : Nat
deriving DecidableEq, Repr

/-- Modelled from the spec: `Budget` of the missing `solver_engine` module. -/
structure Budget where
  monthly_budget_cents : Nat
  future_changes : List BudgetChange
  lump_sum_payments : List LumpSum
deriving DecidableEq, Repr

/-- Modelled from the spec: the closed set of optimization strategies of the
missing `solver_engine` module. -/
inductive OptimizationStrategy where
  | MINIMIZE_TOTAL_INTEREST
  | MINIMIZE_MONTHLY_SPEND
deriving DecidableEq, Repr

/-- Modelled from the spec: the closed set of payment shapes of the missing
`solver_engine` module. -/
inductive PaymentShape where
  | OPTIMIZED_MONTH_TO_MONTH
deriving DecidableEq, Repr

/-- Modelled from the spec: `UserPreferences` of the missing `solver_engine`
module. -/
structure UserPreferences where
  strategy : OptimizationStrategy
  payment_shape : PaymentShape
deriving DecidableEq, Repr

/-- Modelled from the spec: `DebtPortfolio`, the root input of the missing
`solver_engine` module (the plan start date is behaviorally inert here). -/
structure DebtPortfolio where
  accounts : List Account
  budget : Budget
  preferences : UserPreferences
deriving DecidableEq, Repr

/-- Modelled from the spec: `MonthlyResult` of the missing `solver_engine`
module — one output record of the plan. -/
structure MonthlyResult where
  month : Nat
  lender_name : String
  payment_cents : Nat
  ending_balance_cents : Nat
  interest_charged_cents : Nat
deriving DecidableEq, Repr

/-- Modelled from the spec: round-half-to-even rounding of the rational
`p / q` to an integer, on the minor-unit boundary (section 4.1). -/
def roundHalfEven (p q : Nat) : Nat :=
  let d := p / q
  let r := p % q
  if 2 * r < q then d
  else if q < 2 * r then d + 1
  else if d % 2 = 0 then d else d + 1

/-- Modelled from the spec: promo is active for month `m` iff
`promo_duration_months` is set and `m ≤ promo_duration_months`. -/
def promoActive (a : Account) (m : Nat) : Bool :=
  match a.promo_duration_months with
  | some d => decide (m ≤ d)
  | none => false

/-- Modelled from the spec: the effective APR for month `m`; 0 while a
promotional period is active, the standard APR otherwise. -/
def effAprBps (a : Account) (m : Nat) : Nat :=
  if promoActive a m then 0 else a.apr_standard_bps

/-- Modelled from the spec: monthly interest accrual on pre-payment balance
`B`: `round(B * effective_apr_bps / 10000 / 12)` with round-half-to-even. -/
def monthlyInterest (a : Account) (m : Nat) (B : Nat) : Nat :=
  roundHalfEven (B * effAprBps a m) 120000

/-- Modelled from the spec: the minimum-required payment (floor) for month
`m` with pre-payment balance `B`: `max(fixed_cents, round(B * percentage_bps
/ 10000))`, plus the month's interest when `includes_interest` is set; 0 for
a retired account. -/
def monthFloor (a : Account) (m : Nat) (B : Nat) : Nat :=
  if B = 0 then 0
  else
    max a.min_payment_rule.fixed_cents
        (roundHalfEven (B * a.min_payment_rule.percentage_bps) 10000) +
      (if a.min_payment_rule.includes_interest then monthlyInterest a m B else 0)

/-- Modelled from the spec: the active monthly budget for month `m`, derived
by applying all scheduled changes whose effective month is `≤ m`. -/
def activeMonthlyBudget (b : Budget) (m : Nat) : Nat :=
  b.future_changes.foldl
    (fun acc c => if c.effective_month ≤ m then c.new_amount_cents else acc)
    b.monthly_budget_cents

/-- Modelled from the spec: the total of lump sums due in month `m`. -/
def lumpSumDue (b : Budget) (m : Nat) : Nat :=
  ((b.lump_sum_payments.filter (fun l => l.month == m)).map (fun l => l.amount_cents)).sum

/-- Modelled from the spec: `available = active_monthly_budget +
lump_sum_due_this_month` (section 4.2). -/
def availableFunds (b : Budget) (m : Nat) : Nat :=
  activeMonthlyBudget b m + lumpSumDue b m

/-- Modelled from the spec: one per-account line item of a month's
allocation: the account, its pre-payment balance, the interest charged, and
the payment allocated. -/
structure Item where
  acct : Account
  prior : Nat
  interest : Nat
  pay : Nat
deriving DecidableEq, Repr

/-- Modelled from the spec: the balance after interest accrual, against
which payments are clamped (section 4.3). -/
def Item.balAfter (it : Item) : Nat :=
  it.prior + it.interest

/-- Modelled from the spec: the line item before any surplus is applied —
every active account first receives its floor, clamped so that no account
receives more than its balance after interest. -/
def baseItem (m : Nat) (x : Account × Nat) : Item :=
  let i := monthlyInterest x.1 m x.2
  ⟨x.1, x.2, i, min (monthFloor x.1 m x.2) (x.2 + i)⟩

/-- Modelled from the spec: the avalanche ranking (section 4.3): descending
effective APR for the month, ties broken by descending current balance, then
by lender name for determinism. -/
def Rank (m : Nat) (x y : Account × Nat) : Prop :=
  effAprBps y.1 m < effAprBps x.1 m ∨
    (effAprBps x.1 m = effAprBps y.1 m ∧
      (y.2 < x.2 ∨ (x.2 = y.2 ∧ x.1.lender_name ≤ y.1.lender_name)))

instance rankDecidable (m : Nat) : DecidableRel (Rank m) := by
  intro x y
  unfold Rank
  infer_instance

instance rankTotal (m : Nat) : IsTotal (Account × Nat) (Rank m) := by
  constructor
  intro x y
  unfold Rank
  rcases lt_trichotomy (effAprBps x.1 m) (effAprBps y.1 m) with h | h | h
  · exact Or.inr (Or.inl h)
  · rcases lt_trichotomy (x.2) (y.2) with hb | hb | hb
    · exact Or.inr (Or.inr ⟨h.symm, Or.inl hb⟩)
    · rcases le_total x.1.lender_name y.1.lender_name with hn | hn
      · exact Or.inl (Or.inr ⟨h, Or.inr ⟨hb, hn⟩⟩)
      · exact Or.inr (Or.inr ⟨h.symm, Or.inr ⟨hb.symm, hn⟩⟩)
    · exact Or.inl (Or.inr ⟨h, Or.inl hb⟩)
  · exact Or.inl (Or.inl h)

instance rankTrans (m : Nat) : IsTrans (Account × Nat) (Rank m) := by
  constructor
  intro x y z hxy hyz
  unfold Rank at hxy hyz ⊢
  rcases hxy with h1 | ⟨e1, h1⟩
  · rcases hyz with h2 | ⟨e2, _⟩
    · exact Or.inl (lt_trans h2 h1)
    · exact Or.inl (e2 ▸ h1)
  · rcases hyz with h2 | ⟨e2, h2⟩
    · exact Or.inl (e1 ▸ h2)
    · rcases h1 with hb1 | ⟨eb1, hn1⟩
      · rcases h2 with hb2 | ⟨eb2, _⟩
        · exact Or.inr ⟨e1.trans e2, Or.inl (lt_trans hb2 hb1)⟩
        · exact Or.inr ⟨e1.trans e2, Or.inl (eb2 ▸ hb1)⟩
      · rcases h2 with hb2 | ⟨eb2, hn2⟩
        · exact Or.inr ⟨e1.trans e2, Or.inl (eb1 ▸ hb2)⟩
        · exact Or.inr ⟨e1.trans e2, Or.inr ⟨eb1.trans eb2, le_trans hn1 hn2⟩⟩

/-- Modelled from the spec: the surplus cascade (section 4.3): the
top-ranked item receives surplus up to the amount retiring its post-interest
balance, and the remainder cascades to the next item. -/
def cascade (surplus : Nat) : List Item → List Item
  | [] => []
  | it :: rest =>
      let e := min surplus (it.balAfter - it.pay)
      ⟨it.acct, it.prior, it.interest, it.pay + e⟩ :: cascade (surplus - e) rest

/-- Modelled from the spec: strategy dispatch of the allocation engine
(section 4.3) over the active (positive-balance) accounts. -/
def allocate (strat : OptimizationStrategy) (m : Nat) (surplus : Nat)
    (actives : List (Account × Nat)) : List Item :=
  match strat with
  | .MINIMIZE_MONTHLY_SPEND => actives.map (baseItem m)
  | .MINIMIZE_TOTAL_INTEREST =>
      cascade surplus ((actives.insertionSort (Rank m)).map (baseItem m))

/-- Modelled from the spec: the sum of the mandatory floors of all accounts
with balance > 0 for month `m` (section 4.2). -/
def mandatoryFloorsSum (m : Nat) (st : List (Account × Nat)) : Nat :=
  ((st.filter (fun x => decide (0 < x.2))).map (fun x => monthFloor x.1 m x.2)).sum

/-- Modelled from the spec: one month of the simulation (sections 4.2 and
4.3): feasibility check of the mandatory floors against the available funds,
then floor-plus-surplus allocation over the active accounts; retired
accounts are excluded from allocation and emitted with zero amounts. -/
def monthItems (strat : OptimizationStrategy) (b : Budget) (m : Nat)
    (st : List (Account × Nat)) : Option (List Item) :=
  if availableFunds b m < mandatoryFloorsSum m st then none
  else
    some (allocate strat m (availableFunds b m - mandatoryFloorsSum m st)
        (st.filter (fun x => decide (0 < x.2)))
      ++ (st.filter (fun x => !(decide (0 < x.2)))).map (baseItem m))

/-- Modelled from the spec: the `MonthlyResult` record emitted for one line
item; the ending balance is the post-interest balance less the payment. -/
def mkResult (m : Nat) (it : Item) : MonthlyResult :=
  ⟨m, it.acct.lender_name, it.pay, it.balAfter - it.pay, it.interest⟩

/-- Modelled from the spec: the simulation-state entry carried to the next
month for one line item. -/
def nextEntry (it : Item) : Account × Nat :=
  (it.acct, it.balAfter - it.pay)

/-- Modelled from the spec: one full state transition of the monthly
simulation loop, or `none` on infeasibility. -/
def monthStep (strat : OptimizationStrategy) (b : Budget) (m : Nat)
    (st : List (Account × Nat)) : Option (List MonthlyResult × List (Account × Nat)) :=
  (monthItems strat b m st).map (fun items => (items.map (mkResult m), items.map nextEntry))

/-- Modelled from the spec: all balances retired, the completion test of the
simulation loop. -/
def allZero (st : List (Account × Nat)) : Bool :=
  st.all (fun x => x.2 == 0)

/-- Modelled from the spec: the monthly simulation loop (section 4.4),
driven by remaining-horizon fuel; an infeasible month aborts the whole run
(`none`), exhausting the horizon returns the plan generated so far. -/
def simulate (strat : OptimizationStrategy) (b : Budget) :
    Nat → Nat → List (Account × Nat) → Option (List MonthlyResult)
  | 0, _, _ => some []
  | fuel + 1, m, st =>
      if allZero st then some []
      else
        match monthStep strat b m st with
        | none => none
        | some (rs, st2) => (simulate strat b fuel (m + 1) st2).map (fun rest => rs ++ rest)

/-- Modelled from the spec: the fixed simulation horizon of 600 months. -/
def HORIZON : Nat := 600

/-- Modelled from the spec: the initial simulation state, one evolving
balance per input account. -/
def initState (p : DebtPortfolio) : List (Account × Nat) :=
  p.accounts.map (fun a => (a, a.current_balance_cents))

/-- Modelled from the spec: `generate_payment_plan`, the public entry point
of the missing `solver_engine` module; `none` is the explicit failure value
of an infeasible run, distinct from an empty plan `some []`. -/
def generate_payment_plan (p : DebtPortfolio) : Option (List MonthlyResult) :=
  simulate p.preferences.strategy p.budget HORIZON 1 (initState p)

/-- Modelled from the spec: the trajectory of reached months — `iterMonths n
m st` applies `n` successful, not-yet-complete monthly steps from month `m`
and returns the month and state then reached. -/
def iterMonths (strat : OptimizationStrategy) (b : Budget) :
    Nat → Nat → List (Account × Nat) → Option (Nat × List (Account × Nat))
  | 0, m, st => some (m, st)
  | n + 1, m, st =>
      if allZero st then none
      else
        match monthStep strat b m st with
        | none => none
        | some (_, st2) => iterMonths strat b n (m + 1) st2

/-- Total of the payments recorded for month `m` across all accounts of a
plan; the measure of the budget-ceiling property (section 8). -/
def paymentsInMonth (plan : List MonthlyResult) (m : Nat) : Nat :=
  ((plan.filter (fun r => r.month == m)).map (fun r => r.payment_cents)).sum

/-!
Part 2: shallow embedding of `src/enrichment_service.py` (the functions the
claims are about: `classify_transaction`, `_determine_entry_type`, and the
income tally of `enrich_and_analyze_budget`).
-/

/-- Labels that indicate potential debt payments (`DEBT_LABELS` of
`enrichment_service.py`). -/
def DEBT_LABELS : List String :=
  ["loan", "mortgage", "finance", "bnpl", "buy now pay later",
   "credit card", "overdraft", "klarna", "clearpay", "afterpay",
   "laybuy", "paypal credit", "very pay", "littlewoods", "studio",
   "car finance", "personal loan", "debt collection", "debt recovery"]

/-- Labels that indicate fixed/recurring costs (`FIXED_COST_LABELS` of
`enrichment_service.py`). -/
def FIXED_COST_LABELS : List String :=
  ["utilities", "utility", "gas", "electric", "electricity", "water",
   "council tax", "insurance", "home insurance", "car insurance",
   "life insurance", "health insurance", "subscription", "membership",
   "gym", "streaming", "netflix", "spotify", "amazon prime", "disney+",
   "rent", "mortgage payment", "broadband", "internet", "phone", "mobile",
   "tv license", "childcare", "nursery", "school fees"]

/-- Labels for discretionary spending (`DISCRETIONARY_LABELS` of
`enrichment_service.py`; declared by the source, unused by the
classifier). -/
def DISCRETIONARY_LABELS : List String :=
  ["food", "dining", "restaurant", "takeaway", "fast food", "coffee",
   "shopping", "retail", "clothing", "electronics", "entertainment",
   "leisure", "travel", "holiday", "gambling", "betting", "lottery"]

/-- Character-list test: the first list is a prefix of the second. -/
def startsWithChars : List Char → List Char → Bool
  | [], _ => true
  | _ :: _, [] => false
  | a :: as, b :: bs => a == b && startsWithChars as bs

/-- Character-list test: the first list occurs contiguously inside the
second. -/
def hasSubstrChars (needle : List Char) : List Char → Bool
  | [] => startsWithChars needle []
  | b :: bs => startsWithChars needle (b :: bs) || hasSubstrChars needle bs

/-- Python substring test `needle in hay` on the characters of the two
strings. -/
def containsKeyword (needle hay : String) : Bool :=
  hasSubstrChars needle.data hay.data

/-- Lower-casing of a string, character by character (Python `str.lower`
restricted to the ASCII range the keyword lists use). -/
def lowerStr (s : String) : String :=
  ⟨s.data.map Char.toLower⟩

/-- Python `" ".join(parts)`. -/
def joinWithSpace : List String → String
  | [] => ""
  | [s] => s
  | s :: rest => s ++ " " ++ joinWithSpace rest

/-- The joined lowercase label text built by `classify_transaction`:
`" ".join([l.lower() for l in labels])`. -/
def joinedLabels (labels : List String) : String :=
  joinWithSpace (labels.map lowerStr)

/-- Embedding of `EnrichmentService.classify_transaction`
(`enrichment_service.py`, lines 174-209): triage into the budget buckets
"debt" / "fixed" / "discretionary" / "income". -/
def classify_transaction (labels : List String) (is_recurring : Bool)
    (entry_type : String) : String :=
  let labels_text := joinedLabels labels
  if DEBT_LABELS.any (fun kw => containsKeyword kw labels_text) then "debt"
  else if FIXED_COST_LABELS.any (fun kw => containsKeyword kw labels_text) then "fixed"
  else if is_recurring && (entry_type == "outgoing") then "fixed"
  else if entry_type == "outgoing" then "discretionary"
  else "income"

/-- The `outgoing_types` set of `EnrichmentService._determine_entry_type`. -/
def outgoing_types : List String :=
  ["DEBIT", "STANDING_ORDER", "DIRECT_DEBIT", "FEE"]

/-- The `incoming_types` set of `EnrichmentService._determine_entry_type`. -/
def incoming_types : List String :=
  ["CREDIT"]

/-- String membership in a list of strings. -/
def memberOf (s : String) : List String → Bool
  | [] => false
  | t :: rest => (s == t) || memberOf s rest

/-- Python membership of an optional string in a set of strings (`None` is a
member of nothing). -/
def optionMem (tt : Option String) (l : List String) : Bool :=
  match tt with
  | some s => memberOf s l
  | none => false

/-- Embedding of `EnrichmentService._determine_entry_type`
(`enrichment_service.py`, lines 147-172): the transaction type decides the
direction, and every unknown type falls through to "outgoing". -/
def determine_entry_type (transaction_type : Option String) : String :=
  if optionMem transaction_type outgoing_types then "outgoing"
  else if optionMem transaction_type incoming_types then "incoming"
  else "outgoing"

/-- The fields of one enriched transaction that the budget tally of
`enrich_and_analyze_budget` reads. -/
structure EnrichedTx where
  entry_type : String
  budget_category : String
  amount_cents : Nat
deriving DecidableEq, Repr

/-- Embedding of the tally loop of `enrich_and_analyze_budget`
(`enrichment_service.py`, lines 462-483): accumulated (income, fixed,
discretionary) totals in cents; debt rows are collected separately and add
to no total. -/
def budgetTotals (txs : List EnrichedTx) : Nat × Nat × Nat :=
  txs.foldl
    (fun acc tx =>
      if tx.entry_type == "incoming" then (acc.1 + tx.amount_cents, acc.2.1, acc.2.2)
      else if tx.budget_category == "debt" then acc
      else if tx.budget_category == "fixed" then (acc.1, acc.2.1 + tx.amount_cents, acc.2.2)
      else if tx.budget_category == "discretionary" then (acc.1, acc.2.1, acc.2.2 + tx.amount_cents)
      else acc)
    (0, 0, 0)

/-!
Concrete inputs used by counterexamples and witnesses.  They are built like
the accounts of the test programs under `src/`.
-/

/-- Scenario A account of the spec (section 8): the account of
`test_promo_min_payment.py`. -/
def accA : Account :=
  ⟨"Test Card (6-Month Promo)", .CREDIT_CARD, 837423, 2499, 15, ⟨10000, 200, false⟩, some 6⟩

/-- An account whose fixed floor (10000) exceeds its balance (50). -/
def accW : Account :=
  ⟨"W", .CREDIT_CARD, 50, 0, 1, ⟨10000, 0, false⟩, none⟩

/-- Portfolio around `accW`, feasible at month 1. -/
def portW : DebtPortfolio :=
  ⟨[accW], ⟨10000, [], []⟩, ⟨.MINIMIZE_MONTHLY_SPEND, .OPTIMIZED_MONTH_TO_MONTH⟩⟩

/-- A small single-account portfolio that completes in one month under the
avalanche strategy. -/
def accV : Account :=
  ⟨"V", .CREDIT_CARD, 5000, 0, 1, ⟨1000, 0, false⟩, none⟩

/-- Portfolio around `accV`. -/
def portV : DebtPortfolio :=
  ⟨[accV], ⟨50000, [], []⟩, ⟨.MINIMIZE_TOTAL_INTEREST, .OPTIMIZED_MONTH_TO_MONTH⟩⟩

/-- An account with an all-zero minimum-payment rule whose
`includes_interest` flag is set, and no promotional period. -/
def accZ : Account :=
  ⟨"Z", .CREDIT_CARD, 100000, 2400, 1, ⟨0, 0, true⟩, none⟩

/-- Scenario B of the spec (section 8): the account of
`test_single_zero_min.py` — balance 100000, all-zero rule, 6-month promo. -/
def accB : Account :=
  ⟨"Test Card (ZERO Min Payment)", .CREDIT_CARD, 100000, 2499, 15, ⟨0, 0, false⟩, some 6⟩

/-- Scenario B portfolio: budget 2000/month, minimize monthly spend. -/
def portB : DebtPortfolio :=
  ⟨[accB], ⟨2000, [], []⟩, ⟨.MINIMIZE_MONTHLY_SPEND, .OPTIMIZED_MONTH_TO_MONTH⟩⟩

/-- An account whose mandatory floor (20000) exceeds the monthly budget of
`portI` (10000): an infeasible configuration. -/
def accI : Account :=
  ⟨"I", .CREDIT_CARD, 100000, 0, 1, ⟨20000, 0, false⟩, none⟩

/-- Portfolio around `accI`; infeasible at month 1. -/
def portI : DebtPortfolio :=
  ⟨[accI], ⟨10000, [], []⟩, ⟨.MINIMIZE_MONTHLY_SPEND, .OPTIMIZED_MONTH_TO_MONTH⟩⟩

/-!
Helper lemmas.
-/

theorem roundHalfEven_def_eq (p q : Nat) :
    roundHalfEven p q =
      if 2 * (p % q) < q then p / q
      else if q < 2 * (p % q) then p / q + 1
      else if (p / q) % 2 = 0 then p / q else p / q + 1 := rfl

theorem roundHalfEven_char (p q : Nat) (hq : 0 < q) :
    2 * p ≤ 2 * roundHalfEven p q * q + q ∧
    2 * roundHalfEven p q * q ≤ 2 * p + q ∧
    ((2 * p = 2 * roundHalfEven p q * q + q ∨ 2 * roundHalfEven p q * q = 2 * p + q) →
      roundHalfEven p q % 2 = 0) := by
  rw [roundHalfEven_def_eq]
  have key : ∀ d r : Nat, q * d + r = p → r < q →
      2 * p ≤ 2 * (if 2 * r < q then d else if q < 2 * r then d + 1
          else if d % 2 = 0 then d else d + 1) * q + q ∧
      2 * (if 2 * r < q then d else if q < 2 * r then d + 1
          else if d % 2 = 0 then d else d + 1) * q ≤ 2 * p + q ∧
      ((2 * p = 2 * (if 2 * r < q then d else if q < 2 * r then d + 1
            else if d % 2 = 0 then d else d + 1) * q + q ∨
        2 * (if 2 * r < q then d else if q < 2 * r then d + 1
            else if d % 2 = 0 then d else d + 1) * q = 2 * p + q) →
        (if 2 * r < q then d else if q < 2 * r then d + 1
          else if d % 2 = 0 then d else d + 1) % 2 = 0) := by
    intro d r hdr hrq
    split_ifs with h1 h2 h3
    · refine ⟨by nlinarith, by nlinarith, fun hc => ?_⟩
      rcases hc with hc | hc
      · exfalso; nlinarith
      · exfalso; nlinarith
    · refine ⟨by nlinarith, by nlinarith, fun hc => ?_⟩
      rcases hc with hc | hc
      · exfalso; nlinarith
      · exfalso; nlinarith
    · exact ⟨by nlinarith, by nlinarith, fun _ => h3⟩
    · refine ⟨by nlinarith, by nlinarith, fun _ => ?_⟩
      omega
  exact key (p / q) (p % q) (Nat.div_add_mod p q) (Nat.mod_lt p hq)

theorem effAprBps_promo {a : Account} {m : Nat} (h : promoActive a m = true) :
    effAprBps a m = 0 := by
  simp [effAprBps, h]

theorem monthlyInterest_promo {a : Account} {m : Nat} (B : Nat)
    (h : promoActive a m = true) : monthlyInterest a m B = 0 := by
  unfold monthlyInterest
  rw [effAprBps_promo h, Nat.mul_zero]
  decide

theorem monthlyInterest_zero_balance (a : Account) (m : Nat) :
    monthlyInterest a m 0 = 0 := by
  unfold monthlyInterest
  rw [Nat.zero_mul]
  decide

theorem monthFloor_zero_balance (a : Account) (m : Nat) :
    monthFloor a m 0 = 0 := by
  simp [monthFloor]

theorem cascade_mem (s : Nat) (items : List Item) :
    ∀ it ∈ cascade s items, ∃ it0 ∈ items,
      it.acct = it0.acct ∧ it.prior = it0.prior ∧ it.interest = it0.interest ∧
      it0.pay ≤ it.pay ∧ it.pay ≤ max it0.pay (it0.prior + it0.interest) := by
  induction items generalizing s with
  | nil =>
      intro it h
      simp [cascade] at h
  | cons hd tl ih =>
      intro it h
      simp only [cascade] at h
      rcases List.mem_cons.mp h with h | h
      · refine ⟨hd, List.mem_cons_self hd tl, ?_⟩
        subst h
        refine ⟨rfl, rfl, rfl, ?_, ?_⟩ <;>
          (simp only [Item.balAfter]; omega)
      · obtain ⟨it0, h0, hrest⟩ := ih _ it h
        exact ⟨it0, List.mem_cons_of_mem _ h0, hrest⟩

theorem cascade_paySum (s : Nat) (items : List Item) :
    ((cascade s items).map (fun it => it.pay)).sum =
      (items.map (fun it => it.pay)).sum +
        min s ((items.map (fun it => it.balAfter - it.pay)).sum) := by
  induction items generalizing s with
  | nil => simp [cascade]
  | cons hd tl ih =>
      simp only [cascade, List.map_cons, List.sum_cons, ih]
      omega

theorem allocate_mem (strat : OptimizationStrategy) (m s : Nat)
    (actives : List (Account × Nat)) :
    ∀ it ∈ allocate strat m s actives, ∃ x ∈ actives,
      it.acct = x.1 ∧ it.prior = x.2 ∧ it.interest = monthlyInterest x.1 m x.2 ∧
      min (monthFloor x.1 m x.2) (x.2 + monthlyInterest x.1 m x.2) ≤ it.pay ∧
      it.pay ≤ x.2 + monthlyInterest x.1 m x.2 := by
  intro it h
  cases strat with
  | MINIMIZE_MONTHLY_SPEND =>
      simp only [allocate] at h
      obtain ⟨x, hx, rfl⟩ := List.mem_map.mp h
      exact ⟨x, hx, rfl, rfl, rfl, le_refl _, min_le_right _ _⟩
  | MINIMIZE_TOTAL_INTEREST =>
      simp only [allocate] at h
      obtain ⟨it0, h0, ha, hp, hi, hlow, hup⟩ := cascade_mem _ _ it h
      obtain ⟨x, hx, rfl⟩ := List.mem_map.mp h0
      refine ⟨x, (List.mem_insertionSort _).mp hx, ha, hp, hi, hlow, ?_⟩
      refine le_trans hup ?_
      have hb : (baseItem m x).pay ≤ x.2 + monthlyInterest x.1 m x.2 :=
        min_le_right _ _
      exact max_le hb (le_of_eq rfl)

theorem monthItems_infeasible (strat : OptimizationStrategy) (b : Budget) (m : Nat)
    (st : List (Account × Nat))
    (h : availableFunds b m < mandatoryFloorsSum m st) :
    monthItems strat b m st = none := by
  simp [monthItems, h]

theorem monthItems_spec (strat : OptimizationStrategy) (b : Budget) (m : Nat)
    (st : List (Account × Nat)) (items : List Item)
    (h : monthItems strat b m st = some items) :
    ∀ it ∈ items,
      it.interest = monthlyInterest it.acct m it.prior ∧
      min (monthFloor it.acct m it.prior) (it.prior + it.interest) ≤ it.pay ∧
      it.pay ≤ it.prior + it.interest := by
  intro it hit
  unfold monthItems at h
  split_ifs at h with hf
  obtain rfl : _ = items := Option.some.inj h
  rcases List.mem_append.mp hit with h1 | h2
  · obtain ⟨x, hx, ha, hp, hi, hlow, hup⟩ := allocate_mem _ _ _ _ it h1
    rw [ha, hp, hi]
    exact ⟨rfl, hlow, hup⟩
  · obtain ⟨x, hx, rfl⟩ := List.mem_map.mp h2
    have hx2 : x.2 = 0 := by
      have := (List.mem_filter.mp hx).2
      simp only [Bool.not_eq_true', decide_eq_false_iff_not] at this
      omega
    refine ⟨rfl, ?_, ?_⟩ <;>
      simp [baseItem, hx2, monthlyInterest_zero_balance, monthFloor_zero_balance]

theorem monthItems_paySum (strat : OptimizationStrategy) (b : Budget) (m : Nat)
    (st : List (Account × Nat)) (items : List Item)
    (h : monthItems strat b m st = some items) :
    (items.map (fun it => it.pay)).sum ≤ availableFunds b m := by
  unfold monthItems at h
  split_ifs at h with hf
  obtain rfl : _ = items := Option.some.inj h
  rw [List.map_append, List.sum_append]
  have hretired :
      (((st.filter (fun x => !(decide (0 < x.2)))).map (baseItem m)).map
        (fun it => it.pay)).sum = 0 := by
    apply List.sum_eq_zero
    intro v hv
    obtain ⟨it, hit, rfl⟩ := List.mem_map.mp hv
    obtain ⟨x, hx, rfl⟩ := List.mem_map.mp hit
    have hx2 : x.2 = 0 := by
      have := (List.mem_filter.mp hx).2
      simp only [Bool.not_eq_true', decide_eq_false_iff_not] at this
      omega
    simp [baseItem, hx2, monthlyInterest_zero_balance, monthFloor_zero_balance]
  have hbase : ∀ l : List (Account × Nat),
      ((l.map (baseItem m)).map (fun it => it.pay)).sum ≤
        (l.map (fun x => monthFloor x.1 m x.2)).sum := by
    intro l
    rw [List.map_map]
    apply List.sum_le_sum
    intro x _
    exact min_le_left _ _
  have halloc :
      ((allocate strat m (availableFunds b m - mandatoryFloorsSum m st)
          (st.filter (fun x => decide (0 < x.2)))).map (fun it => it.pay)).sum ≤
        availableFunds b m := by
    have hms : mandatoryFloorsSum m st =
        ((st.filter (fun x => decide (0 < x.2))).map
          (fun x => monthFloor x.1 m x.2)).sum := rfl
    cases strat with
    | MINIMIZE_MONTHLY_SPEND =>
        simp only [allocate]
        have h1 := hbase (st.filter (fun x => decide (0 < x.2)))
        omega
    | MINIMIZE_TOTAL_INTEREST =>
        simp only [allocate]
        rw [cascade_paySum]
        have hperm :
            (((st.filter (fun x => decide (0 < x.2))).insertionSort (Rank m)).map
              (fun x => monthFloor x.1 m x.2)).sum =
            ((st.filter (fun x => decide (0 < x.2))).map
              (fun x => monthFloor x.1 m x.2)).sum :=
          ((List.perm_insertionSort (Rank m) _).map _).sum_eq
        have h1 := hbase ((st.filter (fun x => decide (0 < x.2))).insertionSort (Rank m))
        have h2 :
            min (availableFunds b m - mandatoryFloorsSum m st)
              ((((st.filter (fun x => decide (0 < x.2))).insertionSort (Rank m)).map
                  (baseItem m)).map (fun it => it.balAfter - it.pay)).sum ≤
              availableFunds b m - mandatoryFloorsSum m st :=
          min_le_left _ _
        omega
  omega

theorem simulate_mem (strat : OptimizationStrategy) (b : Budget) :
    ∀ (fuel m : Nat) (st : List (Account × Nat)) (plan : List MonthlyResult),
      simulate strat b fuel m st = some plan →
      ∀ r ∈ plan, ∃ k st2 items it, m ≤ k ∧
        monthItems strat b k st2 = some items ∧ it ∈ items ∧ r = mkResult k it := by
  intro fuel
  induction fuel with
  | zero =>
      intro m st plan h r hr
      rw [simulate] at h
      obtain rfl : _ = plan := Option.some.inj h
      simp at hr
  | succ n ih =>
      intro m st plan h r hr
      rw [simulate] at h
      split_ifs at h with hz
      · obtain rfl : _ = plan := Option.some.inj h
        simp at hr
      · cases hstep : monthStep strat b m st with
        | none => rw [hstep] at h; simp at h
        | some pr =>
            rw [hstep] at h
            obtain ⟨rs, st2⟩ := pr
            obtain ⟨rest, hrest, rfl⟩ := Option.map_eq_some'.mp h
            rcases List.mem_append.mp hr with h1 | h2
            · unfold monthStep at hstep
              cases hitems : monthItems strat b m st with
              | none => rw [hitems] at hstep; simp at hstep
              | some items =>
                  rw [hitems] at hstep
                  simp only [Option.map_some'] at hstep
                  obtain ⟨hrs, _⟩ := Prod.mk.injEq .. ▸ Option.some.inj hstep
                  obtain ⟨it, hit, rfl⟩ := List.mem_map.mp (hrs ▸ h1)
                  exact ⟨m, st, items, it, le_refl m, hitems, hit, rfl⟩
            · obtain ⟨k, st3, items, it, hk, hmi, hit, hr2⟩ := ih (m + 1) st2 rest hrest r h2
              exact ⟨k, st3, items, it, by omega, hmi, hit, hr2⟩

theorem simulate_budget (strat : OptimizationStrategy) (b : Budget) :
    ∀ (fuel m : Nat) (st : List (Account × Nat)) (plan : List MonthlyResult),
      simulate strat b fuel m st = some plan →
      m ≥ 1 → ∀ k, paymentsInMonth plan k ≤ availableFunds b k := by
  intro fuel
  induction fuel with
  | zero =>
      intro m st plan h _ k
      rw [simulate] at h
      obtain rfl : _ = plan := Option.some.inj h
      simp [paymentsInMonth]
  | succ n ih =>
      intro m st plan h hm k
      rw [simulate] at h
      split_ifs at h with hz
      · obtain rfl : _ = plan := Option.some.inj h
        simp [paymentsInMonth]
      · cases hstep : monthStep strat b m st with
        | none => rw [hstep] at h; simp at h
        | some pr =>
            rw [hstep] at h
            obtain ⟨rs, st2⟩ := pr
            obtain ⟨rest, hrest, rfl⟩ := Option.map_eq_some'.mp h
            unfold paymentsInMonth
            rw [List.filter_append, List.map_append, List.sum_append]
            unfold monthStep at hstep
            cases hitems : monthItems strat b m st with
            | none => rw [hitems] at hstep; simp at hstep
            | some items =>
                rw [hitems] at hstep
                simp only [Option.map_some'] at hstep
                have hpair := Option.some.inj hstep
                have hrs : rs = items.map (mkResult m) := (Prod.mk.injEq .. ▸ hpair).1.symm
                by_cases hk : k = m
                · subst hk
                  have hnil : rest.filter (fun r => r.month == k) = [] := by
                    rw [List.filter_eq_nil_iff]
                    intro r hr
                    obtain ⟨k2, _, _, _, hk2, _, _, hrmk⟩ :=
                      simulate_mem strat b n (k + 1) st2 rest hrest r hr
                    simp only [hrmk, mkResult]
                    simp only [beq_iff_eq]
                    omega
                  have hall : rs.filter (fun r => r.month == k) = rs := by
                    rw [List.filter_eq_self]
                    intro r hr
                    rw [hrs] at hr
                    obtain ⟨it, _, rfl⟩ := List.mem_map.mp hr
                    simp [mkResult]
                  rw [hnil, hall, hrs, List.map_map]
                  have hsum := monthItems_paySum strat b k st items hitems
                  simp only [List.map_map] at hsum ⊢
                  simpa using hsum
                · have hnil : rs.filter (fun r => r.month == k) = [] := by
                    rw [List.filter_eq_nil_iff]
                    intro r hr
                    rw [hrs] at hr
                    obtain ⟨it, _, rfl⟩ := List.mem_map.mp hr
                    simp [mkResult]
                    omega
                  rw [hnil]
                  have := ih (m + 1) st2 rest hrest (by omega) k
                  unfold paymentsInMonth at this
                  simpa using this

theorem iterMonths_infeasible (strat : OptimizationStrategy) (b : Budget) :
    ∀ (n fuel m : Nat) (st st2 : List (Account × Nat)) (k : Nat),
      iterMonths strat b n m st = some (k, st2) →
      monthItems strat b k st2 = none →
      allZero st2 = false →
      n < fuel →
      simulate strat b fuel m st = none := by
  intro n
  induction n with
  | zero =>
      intro fuel m st st2 k hiter hmi hz hfuel
      rw [iterMonths] at hiter
      have hpair : (m, st) = (k, st2) := Option.some.inj hiter
      have hm : m = k := congrArg Prod.fst hpair
      have hst : st = st2 := congrArg Prod.snd hpair
      cases fuel with
      | zero => omega
      | succ f =>
          rw [simulate]
          rw [if_neg (by rw [hst, hz]; simp)]
          have hms : monthStep strat b m st = none := by
            unfold monthStep
            rw [hm, hst, hmi]
            rfl
          rw [hms]
  | succ n ih =>
      intro fuel m st st2 k hiter hmi hz hfuel
      rw [iterMonths] at hiter
      split_ifs at hiter with hz0
      cases hstep : monthStep strat b m st with
      | none => rw [hstep] at hiter; simp at hiter
      | some pr =>
          rw [hstep] at hiter
          obtain ⟨rs, st3⟩ := pr
          cases fuel with
          | zero => omega
          | succ f =>
              rw [simulate]
              rw [if_neg hz0, hstep]
              dsimp only at hiter ⊢
              rw [ih f (m + 1) st3 st2 k hiter hmi hz (by omega)]
              rfl

/-!
Claim theorems.
-/

/-- C4: for every account and month, interest is `round(B * effective_apr_bps
/ 10000 / 12)` in integer cents with round-half-to-even (the characterization
states that the result is within half a unit of the exact quotient and that
exact ties round to an even number), and every month with an active
promotional period yields `interest_charged_cents = 0` regardless of balance
or standard APR. -/
theorem interest_accrual_round_half_even :
    (∀ (a : Account) (m B : Nat),
      monthlyInterest a m B = roundHalfEven (B * effAprBps a m) 120000) ∧
    (∀ (a : Account) (m B : Nat),
      promoActive a m = true → monthlyInterest a m B = 0) ∧
    (∀ p q : Nat, 0 < q →
      2 * p ≤ 2 * roundHalfEven p q * q + q ∧
      2 * roundHalfEven p q * q ≤ 2 * p + q ∧
      ((2 * p = 2 * roundHalfEven p q * q + q ∨
        2 * roundHalfEven p q * q = 2 * p + q) →
        roundHalfEven p q % 2 = 0)) :=
  ⟨fun _ _ _ => rfl, fun _ _ B h => monthlyInterest_promo B h, roundHalfEven_char⟩

/-- Witness for C4 at concrete inputs: month 3 of the Scenario A promo
account accrues no interest, and the rounding of 5/2 is characterized. -/
theorem interest_accrual_round_half_even_witness :
    monthlyInterest accA 3 999999 = 0 ∧
    (2 * 5 ≤ 2 * roundHalfEven 5 2 * 2 + 2 ∧
     2 * roundHalfEven 5 2 * 2 ≤ 2 * 5 + 2 ∧
     ((2 * 5 = 2 * roundHalfEven 5 2 * 2 + 2 ∨
       2 * roundHalfEven 5 2 * 2 = 2 * 5 + 2) →
       roundHalfEven 5 2 % 2 = 0)) :=
  ⟨interest_accrual_round_half_even.2.1 accA 3 999999 (by decide),
   interest_accrual_round_half_even.2.2 5 2 (by decide)⟩

/-- C5: for every account with positive pre-payment balance the monthly
floor is `max(fixed_cents, round(B * percentage_bps / 10000))` plus the
month's interest when `includes_interest` is set; for Scenario A the month-1
floor is 16748; an account with balance 0 has floor 0 and interest 0. -/
theorem min_payment_floor_formula :
    (∀ (a : Account) (m B : Nat), 0 < B →
      monthFloor a m B =
        max a.min_payment_rule.fixed_cents
            (roundHalfEven (B * a.min_payment_rule.percentage_bps) 10000) +
          (if a.min_payment_rule.includes_interest then monthlyInterest a m B
           else 0)) ∧
    monthFloor accA 1 837423 = 16748 ∧
    (∀ (a : Account) (m : Nat), monthFloor a m 0 = 0 ∧ monthlyInterest a m 0 = 0) := by
  refine ⟨?_, by decide,
    fun a m => ⟨monthFloor_zero_balance a m, monthlyInterest_zero_balance a m⟩⟩
  intro a m B hB
  unfold monthFloor
  rw [if_neg (by omega)]

/-- Witness for C5: the floor formula instantiated at the Scenario A account
in month 1. -/
theorem min_payment_floor_formula_witness :
    monthFloor accA 1 837423 =
      max accA.min_payment_rule.fixed_cents
          (roundHalfEven (837423 * accA.min_payment_rule.percentage_bps) 10000) +
        (if accA.min_payment_rule.includes_interest then monthlyInterest accA 1 837423
         else 0) :=
  min_payment_floor_formula.1 accA 1 837423 (by decide)

/-- C8: under minimize_total_interest the surplus cascade runs over the
active accounts sorted by the avalanche ranking `Rank` (descending effective
APR — 0 during promo — then descending balance, then lender name); each item
in that order receives surplus up to the amount retiring its post-interest
balance and the remainder cascades, so the total extra applied is the
minimum of the surplus and the total retiring need. -/
theorem avalanche_allocation_order :
    (∀ (m surplus : Nat) (actives : List (Account × Nat)),
      allocate .MINIMIZE_TOTAL_INTEREST m surplus actives =
        cascade surplus ((actives.insertionSort (Rank m)).map (baseItem m))) ∧
    (∀ (m : Nat) (actives : List (Account × Nat)),
      List.Sorted (Rank m) (actives.insertionSort (Rank m))) ∧
    (∀ (a : Account) (m : Nat),
      effAprBps a m = if promoActive a m then 0 else a.apr_standard_bps) ∧
    (∀ (s : Nat) (it : Item) (rest : List Item),
      cascade s (it :: rest) =
        ⟨it.acct, it.prior, it.interest, it.pay + min s (it.balAfter - it.pay)⟩ ::
          cascade (s - min s (it.balAfter - it.pay)) rest) ∧
    (∀ (s : Nat) (items : List Item),
      ((cascade s items).map (fun it => it.pay)).sum =
        (items.map (fun it => it.pay)).sum +
          min s ((items.map (fun it => it.balAfter - it.pay)).sum)) :=
  ⟨fun _ _ _ => rfl,
   fun m actives => List.sorted_insertionSort (Rank m) actives,
   fun _ _ => rfl,
   fun _ _ _ => rfl,
   cascade_paySum⟩

/-- C1 counterexample: in the plan generated for `portW` the account has
pre-payment balance 50 > 0 in month 1 and its recorded payment is 50,
strictly below the section-4.1 floor of 10000 (the fixed floor exceeds the
balance, and payments are clamped to the balance after interest). -/
theorem floor_invariant_counterexample :
    generate_payment_plan portW =
      some [⟨1, "W", 50, 0, 0⟩] ∧
    (0 : Nat) < 50 ∧
    monthFloor accW 1 50 = 10000 ∧
    ¬ (monthFloor accW 1 50 ≤ 50) := by
  refine ⟨by decide, by decide, by decide, by decide⟩

/-- C1 (amended): every record of a generated plan arises from a month item,
and whenever the account's pre-payment balance is positive the recorded
payment is at least the section-4.1 floor clamped to the balance after
interest, under every strategy. -/
theorem floor_invariant_amended (p : DebtPortfolio) (plan : List MonthlyResult)
    (h : generate_payment_plan p = some plan) :
    ∀ r ∈ plan, ∃ k st items it,
      monthItems p.preferences.strategy p.budget k st = some items ∧
      it ∈ items ∧ r = mkResult k it ∧
      (0 < it.prior →
        min (monthFloor it.acct k it.prior) (it.prior + it.interest) ≤
          r.payment_cents) := by
  intro r hr
  unfold generate_payment_plan at h
  obtain ⟨k, st2, items, it, _, hmi, hit, hrmk⟩ :=
    simulate_mem p.preferences.strategy p.budget HORIZON 1 (initState p) plan h r hr
  obtain ⟨_, hlow, _⟩ := monthItems_spec _ _ _ _ _ hmi it hit
  refine ⟨k, st2, items, it, hmi, hit, hrmk, fun _ => ?_⟩
  rw [hrmk]
  exact hlow

/-- Witness for C1 (amended) on the one-record plan of `portV`. -/
theorem floor_invariant_amended_witness :
    ∃ k st items it,
      monthItems portV.preferences.strategy portV.budget k st = some items ∧
      it ∈ items ∧
      (⟨1, "V", 5000, 0, 0⟩ : MonthlyResult) = mkResult k it ∧
      (0 < it.prior →
        min (monthFloor it.acct k it.prior) (it.prior + it.interest) ≤
          (⟨1, "V", 5000, 0, 0⟩ : MonthlyResult).payment_cents) :=
  floor_invariant_amended portV [⟨1, "V", 5000, 0, 0⟩] (by decide) _ (by simp)

/-- C3: if the simulation reaches a month whose mandatory floors exceed the
available funds, the whole run returns the explicit failure value `none` —
no partial plan — and `none` is distinct from the empty plan `some []`. -/
theorem infeasible_aborts_whole_run (p : DebtPortfolio) (n k : Nat)
    (st2 : List (Account × Nat))
    (hreach : iterMonths p.preferences.strategy p.budget n 1 (initState p) =
      some (k, st2))
    (hn : n < HORIZON)
    (hinf : availableFunds p.budget k < mandatoryFloorsSum k st2) :
    generate_payment_plan p = none ∧
    (none : Option (List MonthlyResult)) ≠ some [] := by
  have hz : allZero st2 = false := by
    rcases Bool.eq_false_or_eq_true (allZero st2) with hzt | hzf
    swap
    · exact hzf
    · exfalso
      have hforall := List.all_eq_true.mp (show (st2.all fun x => x.2 == 0) = true from hzt)
      have hfil : st2.filter (fun x => decide (0 < x.2)) = [] := by
        rw [List.filter_eq_nil_iff]
        intro x hx
        have hx0 := hforall x hx
        simp only [beq_iff_eq] at hx0
        simp [hx0]
      have hzero : mandatoryFloorsSum k st2 = 0 := by
        unfold mandatoryFloorsSum
        rw [hfil]
        rfl
      omega
  refine ⟨?_, by simp⟩
  unfold generate_payment_plan
  exact iterMonths_infeasible p.preferences.strategy p.budget n HORIZON 1
    (initState p) st2 k hreach
    (monthItems_infeasible p.preferences.strategy p.budget k st2 hinf) hz hn

/-- Witness for C3: `portI` is infeasible at month 1 (floor 20000 against
available 10000), so its whole run fails. -/
theorem infeasible_aborts_whole_run_witness :
    generate_payment_plan portI = none ∧
    (none : Option (List MonthlyResult)) ≠ some [] :=
  infeasible_aborts_whole_run portI 0 1 (initState portI) rfl (by decide) (by decide)

/-- C6: in every generated plan, the total of the payments recorded for a
month never exceeds that month's active monthly budget plus the lump sums
due that month. -/
theorem budget_ceiling (p : DebtPortfolio) (plan : List MonthlyResult)
    (h : generate_payment_plan p = some plan) (m : Nat) :
    paymentsInMonth plan m ≤ availableFunds p.budget m := by
  unfold generate_payment_plan at h
  exact simulate_budget p.preferences.strategy p.budget HORIZON 1 (initState p)
    plan h (by omega) m

/-- Witness for C6 on the one-record plan of `portV` at month 1. -/
theorem budget_ceiling_witness :
    paymentsInMonth [⟨1, "V", 5000, 0, 0⟩] 1 ≤ availableFunds portV.budget 1 :=
  budget_ceiling portV [⟨1, "V", 5000, 0, 0⟩] (by decide) 1

/-- C7: every record of a generated plan arises from a month item whose
payment never exceeds the balance after interest, and the emitted ending
balance equals `max(0, prior + interest - payment)` (hence is never
negative). -/
theorem balance_update_clamped (p : DebtPortfolio) (plan : List MonthlyResult)
    (h : generate_payment_plan p = some plan) :
    ∀ r ∈ plan, ∃ k st items it,
      monthItems p.preferences.strategy p.budget k st = some items ∧
      it ∈ items ∧ r = mkResult k it ∧
      r.payment_cents ≤ it.prior + it.interest ∧
      (r.ending_balance_cents : Int) =
        max 0 ((it.prior : Int) + (it.interest : Int) - (r.payment_cents : Int)) := by
  intro r hr
  unfold generate_payment_plan at h
  obtain ⟨k, st2, items, it, _, hmi, hit, hrmk⟩ :=
    simulate_mem p.preferences.strategy p.budget HORIZON 1 (initState p) plan h r hr
  obtain ⟨_, _, hup⟩ := monthItems_spec _ _ _ _ _ hmi it hit
  subst hrmk
  refine ⟨k, st2, items, it, hmi, hit, rfl, hup, ?_⟩
  have h1 : (mkResult k it).ending_balance_cents = it.prior + it.interest - it.pay := rfl
  have h2 : (mkResult k it).payment_cents = it.pay := rfl
  rw [h1, h2]
  omega

/-- Witness for C7 on the one-record plan of `portV`. -/
theorem balance_update_clamped_witness :
    ∃ k st items it,
      monthItems portV.preferences.strategy portV.budget k st = some items ∧
      it ∈ items ∧
      (⟨1, "V", 5000, 0, 0⟩ : MonthlyResult) = mkResult k it ∧
      (⟨1, "V", 5000, 0, 0⟩ : MonthlyResult).payment_cents ≤ it.prior + it.interest ∧
      ((⟨1, "V", 5000, 0, 0⟩ : MonthlyResult).ending_balance_cents : Int) =
        max 0 ((it.prior : Int) + (it.interest : Int) -
          ((⟨1, "V", 5000, 0, 0⟩ : MonthlyResult).payment_cents : Int)) :=
  balance_update_clamped portV [⟨1, "V", 5000, 0, 0⟩] (by decide) _ (by simp)

/-- C2 counterexample: `accZ` has `fixed_cents = 0` and `percentage_bps =
0`, yet (because `includes_interest` is set and month 1 is not promotional)
its computed floor is 2000, not 0, and under minimize_monthly_spend its
month-1 payment is 2000, not 0. -/
theorem legal_zero_floor_counterexample :
    accZ.min_payment_rule.fixed_cents = 0 ∧
    accZ.min_payment_rule.percentage_bps = 0 ∧
    monthFloor accZ 1 100000 = 2000 ∧
    ¬ (monthFloor accZ 1 100000 = 0) ∧
    monthItems .MINIMIZE_MONTHLY_SPEND ⟨10000, [], []⟩ 1 [(accZ, 100000)] =
      some [⟨accZ, 100000, 2000, 2000⟩] := by
  refine ⟨rfl, rfl, by decide, by decide, by decide⟩

set_option maxRecDepth 1000000 in
/-- C2 (amended): an all-zero rule yields floor 0 in every month where
`includes_interest` is false or that month's interest is 0; under
minimize_monthly_spend such an account is paid exactly 0 in those months;
and in Scenario B (`portB`) the generated plan exists and pays 0 in every
promo month 1-6 — valid output, with no implicit positive floor. -/
theorem legal_zero_floor_amended :
    (∀ (a : Account) (m B : Nat),
      a.min_payment_rule.fixed_cents = 0 →
      a.min_payment_rule.percentage_bps = 0 →
      (a.min_payment_rule.includes_interest = false ∨ monthlyInterest a m B = 0) →
      monthFloor a m B = 0) ∧
    (∀ (b : Budget) (m : Nat) (st : List (Account × Nat)) (items : List Item),
      monthItems .MINIMIZE_MONTHLY_SPEND b m st = some items →
      ∀ it ∈ items,
        it.acct.min_payment_rule.fixed_cents = 0 →
        it.acct.min_payment_rule.percentage_bps = 0 →
        (it.acct.min_payment_rule.includes_interest = false ∨ it.interest = 0) →
        it.pay = 0) ∧
    ((generate_payment_plan portB).isSome = true ∧
      ((generate_payment_plan portB).getD []).all
        (fun r => decide (6 < r.month) || decide (r.payment_cents = 0)) = true) := by
  have hfloor : ∀ (a : Account) (m B : Nat),
      a.min_payment_rule.fixed_cents = 0 →
      a.min_payment_rule.percentage_bps = 0 →
      (a.min_payment_rule.includes_interest = false ∨ monthlyInterest a m B = 0) →
      monthFloor a m B = 0 := by
    intro a m B h0 h1 h2
    unfold monthFloor
    by_cases hB : B = 0
    · rw [if_pos hB]
    · rw [if_neg hB, h0, h1, Nat.mul_zero]
      have hr : roundHalfEven 0 10000 = 0 := by decide
      rw [hr]
      rcases h2 with h2 | h2 <;> simp [h2]
  refine ⟨hfloor, ?_, ?_, ?_⟩
  · intro b m st items h it hit h0 h1 h2
    have hform : ∃ x : Account × Nat, it = baseItem m x := by
      unfold monthItems at h
      split_ifs at h with hf
      obtain rfl : _ = items := Option.some.inj h
      rcases List.mem_append.mp hit with h1m | h2m
      · simp only [allocate] at h1m
        obtain ⟨x, _, rfl⟩ := List.mem_map.mp h1m
        exact ⟨x, rfl⟩
      · obtain ⟨x, _, rfl⟩ := List.mem_map.mp h2m
        exact ⟨x, rfl⟩
    obtain ⟨x, rfl⟩ := hform
    have hfl : monthFloor x.1 m x.2 = 0 := hfloor x.1 m x.2 h0 h1 h2
    show min (monthFloor x.1 m x.2) (x.2 + monthlyInterest x.1 m x.2) = 0
    rw [hfl]
    omega
  · decide
  · decide

/-- Witness for C2 (amended): the Scenario B account has floor 0 at month 1
with its 100000 balance. -/
theorem legal_zero_floor_amended_witness :
    monthFloor accB 1 100000 = 0 :=
  legal_zero_floor_amended.1 accB 1 100000 rfl rfl (Or.inl rfl)

theorem budgetTotals_income (txs : List EnrichedTx) :
    ∀ acc : Nat × Nat × Nat,
      (txs.foldl
        (fun acc tx =>
          if tx.entry_type == "incoming" then (acc.1 + tx.amount_cents, acc.2.1, acc.2.2)
          else if tx.budget_category == "debt" then acc
          else if tx.budget_category == "fixed" then (acc.1, acc.2.1 + tx.amount_cents, acc.2.2)
          else if tx.budget_category == "discretionary" then (acc.1, acc.2.1, acc.2.2 + tx.amount_cents)
          else acc)
        acc).1 =
      acc.1 + ((txs.filter (fun t => t.entry_type == "incoming")).map
        (fun t => t.amount_cents)).sum := by
  induction txs with
  | nil => intro acc; simp
  | cons hd tl ih =>
      intro acc
      simp only [List.foldl_cons, List.filter_cons]
      by_cases h : (hd.entry_type == "incoming") = true
      · rw [if_pos h, if_pos h, ih]
        simp only [List.map_cons, List.sum_cons]
        omega
      · rw [if_neg h, if_neg h]
        split_ifs <;> rw [ih]

/-- C9: `classify_transaction` always returns one of "debt", "fixed",
"discretionary", "income", with fixed precedence: a debt keyword occurring
as a substring of the joined lowercase labels yields "debt" regardless of
entry type or recurrence; otherwise a fixed-cost keyword yields "fixed";
otherwise a recurring outgoing transaction yields "fixed"; otherwise an
outgoing transaction yields "discretionary"; everything else — including any
incoming transaction without debt/fixed keywords — yields "income". -/
theorem classify_transaction_precedence :
    ∀ (labels : List String) (is_recurring : Bool) (entry_type : String),
      (classify_transaction labels is_recurring entry_type = "debt" ∨
       classify_transaction labels is_recurring entry_type = "fixed" ∨
       classify_transaction labels is_recurring entry_type = "discretionary" ∨
       classify_transaction labels is_recurring entry_type = "income") ∧
      (DEBT_LABELS.any (fun kw => containsKeyword kw (joinedLabels labels)) = true →
        classify_transaction labels is_recurring entry_type = "debt") ∧
      (DEBT_LABELS.any (fun kw => containsKeyword kw (joinedLabels labels)) = false →
        FIXED_COST_LABELS.any (fun kw => containsKeyword kw (joinedLabels labels)) = true →
        classify_transaction labels is_recurring entry_type = "fixed") ∧
      (DEBT_LABELS.any (fun kw => containsKeyword kw (joinedLabels labels)) = false →
        FIXED_COST_LABELS.any (fun kw => containsKeyword kw (joinedLabels labels)) = false →
        is_recurring = true → entry_type = "outgoing" →
        classify_transaction labels is_recurring entry_type = "fixed") ∧
      (DEBT_LABELS.any (fun kw => containsKeyword kw (joinedLabels labels)) = false →
        FIXED_COST_LABELS.any (fun kw => containsKeyword kw (joinedLabels labels)) = false →
        is_recurring = false → entry_type = "outgoing" →
        classify_transaction labels is_recurring entry_type = "discretionary") ∧
      (DEBT_LABELS.any (fun kw => containsKeyword kw (joinedLabels labels)) = false →
        FIXED_COST_LABELS.any (fun kw => containsKeyword kw (joinedLabels labels)) = false →
        entry_type ≠ "outgoing" →
        classify_transaction labels is_recurring entry_type = "income") := by
  intro labels rec et
  have p2 : DEBT_LABELS.any (fun kw => containsKeyword kw (joinedLabels labels)) = true →
      classify_transaction labels rec et = "debt" :=
    fun h1 => by simp [classify_transaction, h1]
  have p3 : DEBT_LABELS.any (fun kw => containsKeyword kw (joinedLabels labels)) = false →
      FIXED_COST_LABELS.any (fun kw => containsKeyword kw (joinedLabels labels)) = true →
      classify_transaction labels rec et = "fixed" :=
    fun h1 h2 => by simp [classify_transaction, h1, h2]
  have p4 : DEBT_LABELS.any (fun kw => containsKeyword kw (joinedLabels labels)) = false →
      FIXED_COST_LABELS.any (fun kw => containsKeyword kw (joinedLabels labels)) = false →
      rec = true → et = "outgoing" →
      classify_transaction labels rec et = "fixed" :=
    fun h1 h2 h3 h4 => by simp [classify_transaction, h1, h2, h3, h4]
  have p5 : DEBT_LABELS.any (fun kw => containsKeyword kw (joinedLabels labels)) = false →
      FIXED_COST_LABELS.any (fun kw => containsKeyword kw (joinedLabels labels)) = false →
      rec = false → et = "outgoing" →
      classify_transaction labels rec et = "discretionary" :=
    fun h1 h2 h3 h4 => by simp [classify_transaction, h1, h2, h3, h4]
  have p6 : DEBT_LABELS.any (fun kw => containsKeyword kw (joinedLabels labels)) = false →
      FIXED_COST_LABELS.any (fun kw => containsKeyword kw (joinedLabels labels)) = false →
      et ≠ "outgoing" →
      classify_transaction labels rec et = "income" :=
    fun h1 h2 h3 => by simp [classify_transaction, h1, h2, h3]
  refine ⟨?_, p2, p3, p4, p5, p6⟩
  cases hd : DEBT_LABELS.any (fun kw => containsKeyword kw (joinedLabels labels)) with
  | true => exact Or.inl (p2 hd)
  | false =>
      cases hf : FIXED_COST_LABELS.any (fun kw => containsKeyword kw (joinedLabels labels)) with
      | true => exact Or.inr (Or.inl (p3 hd hf))
      | false =>
          by_cases ho : et = "outgoing"
          · rcases Bool.eq_false_or_eq_true rec with hr | hr
            · exact Or.inr (Or.inl (p4 hd hf hr ho))
            · exact Or.inr (Or.inr (Or.inl (p5 hd hf hr ho)))
          · exact Or.inr (Or.inr (Or.inr (p6 hd hf ho)))

/-- Witness for C9: a transaction whose label contains the debt keyword
"loan" is classified "debt" even though it is incoming and not recurring. -/
theorem classify_transaction_precedence_witness :
    classify_transaction ["Loan Payment"] false "incoming" = "debt" :=
  (classify_transaction_precedence ["Loan Payment"] false "incoming").2.1 (by decide)

/-- C10: `determine_entry_type` returns "incoming" exactly when the
normalized transaction type is `some "CREDIT"`; every other input — missing,
empty, or unrecognized — yields "outgoing"; and in the budget tally only
rows with entry type "incoming" are counted as income. -/
theorem determine_entry_type_spec :
    (∀ tt : Option String,
      (determine_entry_type tt = "incoming" ↔ tt = some "CREDIT") ∧
      (tt ≠ some "CREDIT" → determine_entry_type tt = "outgoing")) ∧
    determine_entry_type none = "outgoing" ∧
    determine_entry_type (some "") = "outgoing" ∧
    (∀ txs : List EnrichedTx,
      (budgetTotals txs).1 =
        ((txs.filter (fun t => t.entry_type == "incoming")).map
          (fun t => t.amount_cents)).sum) := by
  refine ⟨?_, by decide, by decide, ?_⟩
  · intro tt
    constructor
    · constructor
      · intro h
        unfold determine_entry_type at h
        split_ifs at h with h1 h2
        · exact absurd h (by decide)
        · cases tt with
          | none => simp [optionMem] at h2
          | some s =>
              simp only [optionMem, incoming_types, memberOf, Bool.or_false,
                beq_iff_eq] at h2
              rw [h2]
        · exact absurd h (by decide)
      · intro h
        subst h
        decide
    · intro hne
      unfold determine_entry_type
      split_ifs with h1 h2
      · rfl
      · exfalso
        cases tt with
        | none => simp [optionMem] at h2
        | some s =>
            simp only [optionMem, incoming_types, memberOf, Bool.or_false,
              beq_iff_eq] at h2
            exact hne (by rw [h2])
      · rfl
  · intro txs
    have h := budgetTotals_income txs (0, 0, 0)
    unfold budgetTotals
    simpa using h

/-- Witness for C10: an unrecognized transaction type is classified
"outgoing". -/
theorem determine_entry_type_spec_witness :
    determine_entry_type (some "UNKNOWN") = "outgoing" :=
  (determine_entry_type_spec.1 (some "UNKNOWN")).2 (by decide)

end PaydownPilot
